import Mathlib

/-!
Verification of the amdirt repository: a shallow embedding of the
pure computational content of `amdirt/core/__init__.py`,
`amdirt/validate/__init__.py`, `amdirt/configuration/configuration.py`,
`amdirt/cli.py` and `AMDirT/core/ena.py`, together with theorems settling
the behavioural claims about those functions.

Outbound HTTP calls are modelled by passing the response (or the fact that
the connection failed) as an explicit argument; pandas DataFrames are
modelled as lists of row records, and in-place column assignment on a
DataFrame argument is modelled by returning the final state of that
argument next to the function result.
-/

namespace Amdirt

/-- Decidable equality for `Except`, used to evaluate the embedded
functions on concrete inputs. -/
instance {ε α : Type} [DecidableEq ε] [DecidableEq α] : DecidableEq (Except ε α) := fun x y =>
  match x, y with
  | .ok a, .ok b =>
    if h : a = b then isTrue (by rw [h]) else isFalse (by intro he; cases he; exact h rfl)
  | .error a, .error b =>
    if h : a = b then isTrue (by rw [h]) else isFalse (by intro he; cases he; exact h rfl)
  | .ok _, .error _ => isFalse (by intro he; cases he)
  | .error _, .ok _ => isFalse (by intro he; cases he)

/-! ## String primitives

The Python code uses `str.split`, `str.replace`, `in`, `str.startswith`,
`str.lower` and `os.path`-style basenames. The corresponding Lean core
`String` functions are defined by well-founded recursion on byte
positions, which the kernel cannot evaluate; the structurally recursive
reimplementations below (over the character list of the string) have the
same behaviour for the separators used in the repository - all of which
are single characters - and keep every definition kernel-computable. -/

/-- Split a character list on a separator character. Mirrors the Python
`str.split(sep)` semantics for a one-character separator: the empty string
yields `[[]]`, and separators at the ends yield empty fields. -/
def splitChars (c : Char) : List Char → List (List Char)
  | [] => [[]]
  | x :: xs =>
    match splitChars c xs with
    | [] => [[]]
    | h :: t => if x == c then [] :: h :: t else (x :: h) :: t

/-- `s.split(c)` for a one-character separator `c`. -/
def splitOnChar (c : Char) (s : String) : List String :=
  (splitChars c s.data).map (fun l => ⟨l⟩)

/-- `s.replace(a, b)` for one-character pattern and replacement. -/
def replaceChar (a b : Char) (s : String) : String :=
  ⟨s.data.map (fun x => if x == a then b else x)⟩

/-- Helper for substring search: does `needle` occur in the list? -/
def containsStrAux (needle : List Char) : List Char → Bool
  | [] => needle.isPrefixOf ([] : List Char)
  | c :: cs => needle.isPrefixOf (c :: cs) || containsStrAux needle cs

/-- The Python `needle in hay` substring test. -/
def containsStr (needle hay : String) : Bool :=
  containsStrAux needle.data hay.data

/-- `s.startswith(c)` for a one-character pattern. -/
def startsWithChar (c : Char) (s : String) : Bool :=
  s.data.head? == some c

/-- `s.lower()`. -/
def lowerStr (s : String) : String :=
  ⟨s.data.map Char.toLower⟩

/-- `sep.join(parts)` for a one-character separator. -/
def joinChar (c : Char) (parts : List String) : String :=
  ⟨List.intercalate [c] (parts.map String.data)⟩

/-- Numeric value of an all-digit character list. -/
def digitsToNat (l : List Char) : Nat :=
  l.foldl (fun n c => n * 10 + (c.toNat - 48)) 0

/-- `pathlib.Path(s).name`: the last component of the path after dropping
empty and `.` components (so trailing slashes are ignored), or the empty
string when no component remains. -/
def pathName (s : String) : String :=
  ((splitOnChar '/' s).filter (fun c => !(c == "") && !(c == "."))).getLastD ""

/-! ## Version parsing and ordering

Models `packaging.version.Version` (and `packaging.version.parse`, which in
current packaging releases is the same strict constructor) restricted to
release-only version strings of the shape used by AncientMetagenomeDir tags
(an optional leading `v`/`V` followed by dot-separated numeric segments).
Any other string fails to parse, which in the Python library raises
`InvalidVersion`.  Following `packaging`, the comparison key of a release is
its segment list with trailing zeros stripped, compared lexicographically.
-/

/-- Strip trailing zero segments, as `packaging` does when building the
comparison key of a release. -/
def stripTrailingZeros (l : List Nat) : List Nat :=
  (((l.reverse).dropWhile (fun n => n == 0))).reverse

/-- Parse a release-only version string: optional leading `v` or `V`, then
one or more dot-separated all-digit segments. Returns the comparison key
(trailing zeros stripped), or `none` when the string is not a valid
version (Python: `InvalidVersion`). -/
def parseRelease (s : String) : Option (List Nat) :=
  let body : String :=
    if startsWithChar 'v' s || startsWithChar 'V' s then ⟨s.data.tail⟩ else s
  let parts := splitOnChar '.' body
  if parts.all (fun p => !p.data.isEmpty && p.data.all Char.isDigit) then
    some (stripTrailingZeros (parts.map (fun p => digitsToNat p.data)))
  else
    none

/-- Lexicographic order on release comparison keys: `[] ≤ anything`, and
head-first numeric comparison otherwise. On keys with trailing zeros
stripped this coincides with the padded comparison of PEP 440. -/
def lexLe : List Nat → List Nat → Bool
  | [], _ => true
  | _ :: _, [] => false
  | a :: as, b :: bs => if a < b then true else if b < a then false else lexLe as bs

/-- Comparison key of a tag string, defaulting to `[]` for strings that do
not parse (only used where parseability has been checked). -/
def verKey (t : String) : List Nat := (parseRelease t).getD []

/-! ## Release tag discovery (`get_amdir_tags`) and selection (`get_latest_tag`) -/

/-- Outcome of the `requests.get` call against the GitHub tag-list
endpoint: either a response with a status code and the tag names carried in
its JSON body, or a connection failure (which `requests` raises as
`ConnectionError`). -/
inductive TagsFetch where
  | response (status : Nat) (names : List String)
  | unreachable
deriving DecidableEq

/-- Python exceptions that can escape the tag helpers. -/
inductive NetError where
  | connectionError
  | invalidVersion
  | indexError
deriving DecidableEq

/-- Result of `get_amdir_tags`: the returned tag list, plus whether the
fallback warning was logged. -/
structure TagsResult where
  tags : List String
  warned : Bool
deriving DecidableEq

/-- The comparison key of `version.parse("v22.09")`. -/
def v2209 : List Nat := [22, 9]

/-- The list comprehension
`[tag for tag in tags if version.parse(tag) >= version.parse("v22.09")]`:
evaluated left to right, an unparseable tag raises `InvalidVersion`. -/
def filter_ge_v2209 : List String → Except NetError (List String)
  | [] => .ok []
  | t :: ts =>
    match parseRelease t with
    | none => .error .invalidVersion
    | some v =>
      (filter_ge_v2209 ts).map (fun rest => if lexLe v2209 v then t :: rest else rest)

/-- `get_amdir_tags` from `amdirt/core/__init__.py`, with the HTTP call
modelled by the `TagsFetch` argument. A connection failure propagates (the
code has no `try`/`except` around `requests.get`); a non-200 status logs a
warning and returns `["master"]`; a 200 status drops the literal
`"latest"` and keeps the tags whose parsed version is at least `v22.09`,
an unparseable tag raising `InvalidVersion`. -/
def get_amdir_tags : TagsFetch → Except NetError TagsResult
  | .unreachable => .error .connectionError
  | .response status names =>
    if status == 200 then
      (filter_ge_v2209 (names.filter (fun n => n ≠ "latest"))).map
        (fun ts => ⟨ts, false⟩)
    else
      .ok ⟨["master"], true⟩

/-- The seed-and-fold equivalent of `sorted(tags, key=Version)[-1]` on a
nonempty list: the last element of the stable ascending sort is the last
occurrence of a tag with maximal comparison key. -/
def latest_tag_pick : List String → Option String
  | [] => none
  | t :: ts =>
    some (ts.foldl (fun best x => if lexLe (verKey best) (verKey x) then x else best) t)

/-- `get_latest_tag` from `amdirt/core/__init__.py`.
`sorted(tags, key=lambda x: version.Version(x))[-1]` raises
`InvalidVersion` when any tag fails to parse (caught: fall back to
`"master"` when present, else re-raise), and raises an uncaught
`IndexError` on an empty list. -/
def get_latest_tag (tags : List String) : Except NetError String :=
  if tags.all (fun t => (parseRelease t).isSome) then
    match latest_tag_pick tags with
    | some t => .ok t
    | none => .error .indexError
  else if tags.contains "master" then .ok "master"
  else .error .invalidVersion

/-! ## Colour chemistry and filename extraction -/

/-- `get_colour_chemistry` from `amdirt/core/__init__.py`: exact match
against the two-dye instrument list, defaulting to four dyes. -/
def get_colour_chemistry (instrument : String) : Nat :=
  let instruments_2dye : List String := [
    "Illumina MiniSeq",
    "Illumina NovaSeq 6000",
    "Illumina NovaSeq X",
    "Illumina iSeq 100",
    "NextSeq 1000",
    "NextSeq 2000",
    "NextSeq 500",
    "NextSeq 550"
  ]
  if instruments_2dye.contains instrument then 2 else 4

/-- `get_filename` from `amdirt/core/__init__.py`. The Python function
returns a string from the `fwd` and `rev` branches and falls through with
an implicit `None` for any other orientation, modelled by `Option`. -/
def get_filename (path_string : String) (orientation : String) : Option String :=
  let fr : String × String :=
    if containsStr ";" path_string then
      (pathName ((splitOnChar ';' path_string).getD 0 ""),
       pathName ((splitOnChar ';' path_string).getD 1 ""))
    else
      (pathName path_string, "NA")
  if orientation == "fwd" then some fr.1
  else if orientation == "rev" then some fr.2
  else none

/-! ## Row model of the dataset tables

A pandas DataFrame is modelled as a list of row records. The columns the
pipeline shapers read or write are modelled as fields; the derived columns
the shapers assign (`Colour_Chemistry`, `UDG_Treatment`, `R1`, ...) are
`Option`-valued with `none` meaning the column is absent, as it is in the
dataset tables the caller loads. Column assignment on a DataFrame argument
mutates the caller's object, so each shaper below returns, next to its
result, the final state of the `libraries` argument. -/

/-- A row of a samples Dataset Table (columns relevant to the embedded
functions only). -/
structure SampleRow where
  archive : String := ""
  archive_accession : String := ""
  sample_host : String := ""
  sample_name : String := ""
deriving DecidableEq

/-- A row of a libraries Dataset Table, with the base columns the shapers
read and the derived columns they assign (absent, i.e. `none`, in a
freshly loaded table). -/
structure LibraryRow where
  sample_name : String := ""
  library_name : String := ""
  instrument_model : String := ""
  library_treatment : String := ""
  library_layout : String := ""
  strand_type : String := ""
  sample_host : String := ""
  archive_data_accession : String := ""
  archive_sample_accession : String := ""
  download_links : String := ""
  download_md5s : String := ""
  download_sizes : String := ""
  data_publication_doi : String := ""
  Colour_Chemistry : Option Nat := none
  UDG_Treatment : Option String := none
  R1 : Option String := none
  R2 : Option String := none
  Lane : Option Nat := none
  SeqType : Option String := none
  BAM : Option String := none
  fastq_1 : Option String := none
  fastq_2 : Option String := none
  fasta : Option String := none
  short_reads_1 : Option String := none
  short_reads_2 : Option String := none
  longs_reads : Option String := none
deriving DecidableEq

/-- The sample-name sanitization
`.str.replace(" ", "_").str.replace("/", "_")` shared by the shapers. -/
def sanitize_name (s : String) : String :=
  replaceChar '/' '_' (replaceChar ' ' '_' s)

/-! ## Pipeline table shapers -/

/-- Row of an nf-core/eager input table. -/
structure EagerRow where
  Sample_Name : String
  Library_ID : String
  Lane : Nat
  Colour_Chemistry : Nat
  SeqType : String
  Organism : String
  Strandedness : String
  UDG_Treatment : String
  R1 : Option String
  R2 : Option String
  BAM : String
deriving DecidableEq

/-- The per-row effect of the column assignments in `prepare_eager_table`
(and, identically, in `prepare_aMeta_table`): sanitize `sample_name`,
derive `Colour_Chemistry`, `UDG_Treatment`, `R1`, `R2`, `Lane`, `SeqType`
and `BAM`, and force `sample_host` for the environmental table. -/
def eager_enrich (table_name : String) (r : LibraryRow) : LibraryRow :=
  let r := { r with sample_name := sanitize_name r.sample_name }
  let r := { r with Colour_Chemistry := some (get_colour_chemistry r.instrument_model) }
  let r := { r with UDG_Treatment := some ((splitOnChar '-' r.library_treatment).getD 0 "") }
  let r := { r with R1 := get_filename r.download_links "fwd" }
  let r := { r with R2 := get_filename r.download_links "rev" }
  let r := { r with Lane := some 0 }
  let r := { r with SeqType := some (if r.library_layout == "SINGLE" then "SE" else "PE") }
  let r := { r with BAM := some "NA" }
  if table_name == "ancientmetagenome-environmental" then
    { r with sample_host := "environmental" }
  else r

/-- `prepare_eager_table` from `amdirt/core/__init__.py`. Returns the
eager input table together with the final state of the (mutated)
`libraries` argument; `samples` and `supported_archives` are unused by the
function body. -/
def prepare_eager_table (samples : List SampleRow) (libraries : List LibraryRow)
    (table_name : String) (supported_archives : List String) :
    List EagerRow × List LibraryRow :=
  let enriched := libraries.map (eager_enrich table_name)
  (enriched.map (fun r =>
    { Sample_Name := r.sample_name,
      Library_ID := r.archive_data_accession,
      Lane := r.Lane.getD 0,
      Colour_Chemistry := r.Colour_Chemistry.getD 0,
      SeqType := r.SeqType.getD "",
      Organism := r.sample_host,
      Strandedness := r.strand_type,
      UDG_Treatment := r.UDG_Treatment.getD "",
      R1 := r.R1,
      R2 := r.R2,
      BAM := r.BAM.getD "" }), enriched)

/-- Row of an nf-core/mag input table. -/
structure MagRow where
  sample : String
  group : String
  short_reads_1 : Option String
  short_reads_2 : Option String
  longs_reads : String
deriving DecidableEq

/-- `parse_to_mag` from `amdirt/core/__init__.py`, applied to a subset
DataFrame (a copy produced by boolean-mask indexing, so its column
assignments do not reach the caller's table). -/
def parse_to_mag (libraries : List LibraryRow) : List MagRow :=
  libraries.map (fun r =>
    { sample := r.archive_data_accession,
      group := r.archive_sample_accession,
      short_reads_1 := get_filename r.download_links "fwd",
      short_reads_2 := (get_filename r.download_links "rev").map
        (fun v => if v == "NA" then "" else v),
      longs_reads := "" })

/-- `prepare_mag_table` from `amdirt/core/__init__.py`: sanitizes
`sample_name` on the caller's table, then splits into single- and
paired-layout subsets and shapes each through `parse_to_mag` (an empty
subset stays empty). Returns the pair of shaped subsets together with the
final state of the `libraries` argument. -/
def prepare_mag_table (samples : List SampleRow) (libraries : List LibraryRow)
    (table_name : String) (supported_archives : List String) :
    (List MagRow × List MagRow) × List LibraryRow :=
  let libraries := libraries.map
    (fun r => { r with sample_name := sanitize_name r.sample_name })
  let single_libraries := libraries.filter (fun r => r.library_layout == "SINGLE")
  let paired_libraries := libraries.filter (fun r => r.library_layout == "PAIRED")
  ((parse_to_mag single_libraries, parse_to_mag paired_libraries), libraries)

/-- Row of an nf-core/taxprofiler input table. -/
structure TaxprofilerRow where
  sample : String
  run_accession : String
  instrument_platform : String
  fastq_1 : Option String
  fastq_2 : Option String
  fasta : String
deriving DecidableEq

/-- The cascaded `numpy.where` in `prepare_taxprofiler_table`: priority
substring normalization of `instrument_model`, case-insensitively. -/
def normalize_instrument (m : String) : String :=
  let lo := lowerStr m
  if containsStr "illumina" lo || containsStr "nextseq" lo ||
     containsStr "hiseq" lo || containsStr "miseq" lo then "ILLUMINA"
  else if containsStr "torrent" lo then "ION_TORRENT"
  else if containsStr "helicos" lo then "HELICOS"
  else if containsStr "bgiseq" lo then "BGISEQ"
  else if containsStr "454" lo then "LS454"
  else m

/-- The per-row effect of the column assignments in
`prepare_taxprofiler_table`. -/
def taxprofiler_enrich (r : LibraryRow) : LibraryRow :=
  let r := { r with sample_name := sanitize_name r.sample_name }
  let r := { r with fastq_1 := get_filename r.download_links "fwd" }
  let r := { r with fastq_2 := get_filename r.download_links "rev" }
  let r := { r with fastq_2 := r.fastq_2.map (fun v => if v == "NA" then "" else v) }
  let r := { r with fasta := some "" }
  { r with instrument_model := normalize_instrument r.instrument_model }

/-- `prepare_taxprofiler_table` from `amdirt/core/__init__.py`. Returns
the taxprofiler input table together with the final state of the
(mutated) `libraries` argument. -/
def prepare_taxprofiler_table (samples : List SampleRow) (libraries : List LibraryRow)
    (table_name : String) (supported_archives : List String) :
    List TaxprofilerRow × List LibraryRow :=
  let enriched := libraries.map taxprofiler_enrich
  (enriched.map (fun r =>
    { sample := r.sample_name,
      run_accession := r.library_name,
      instrument_platform := r.instrument_model,
      fastq_1 := r.fastq_1,
      fastq_2 := r.fastq_2,
      fasta := r.fasta.getD "" }), enriched)

/-- Row of an aMeta input table. -/
structure AMetaRow where
  sample : String
  fastq : Option String
deriving DecidableEq

/-- `prepare_aMeta_table` from `amdirt/core/__init__.py`: its column
assignments are identical to those of `prepare_eager_table`
(`eager_enrich`), but only `{sample, fastq}` are kept. Returns the table
together with the final state of the (mutated) `libraries` argument. -/
def prepare_aMeta_table (samples : List SampleRow) (libraries : List LibraryRow)
    (table_name : String) (supported_archives : List String) :
    List AMetaRow × List LibraryRow :=
  let enriched := libraries.map (eager_enrich table_name)
  (enriched.map (fun r =>
    { sample := r.archive_data_accession, fastq := r.R1 }), enriched)

/-- First-occurrence deduplication helper. -/
def dedupFirstAux {α : Type} [DecidableEq α] (seen : List α) : List α → List α
  | [] => []
  | a :: rest =>
    if seen.contains a then dedupFirstAux seen rest
    else a :: dedupFirstAux (a :: seen) rest

/-- Deduplicate keeping the first occurrence of each element, as pandas
`drop_duplicates` does; also used as the (order-normalized) model of the
Python `set`s iterated over when the download scripts are generated. -/
def dedupFirst {α : Type} [DecidableEq α] (l : List α) : List α :=
  dedupFirstAux [] l

/-- The host-stripped remote path used by the generated Aspera command:
`"/".join(url.split("/")[1:])`. -/
def drop_host (url : String) : String :=
  joinChar '/' ((splitOnChar '/' url).drop 1)

/-- Result of `prepare_accession_table`. The three generated shell scripts
consist of the fixed header `#!/usr/bin/env bash` followed by one command
line per element of the respective list; the command text is pure string
interpolation of the listed parameters (url and expected md5 for curl,
host-stripped path for Aspera, accession for fasterq-dump), so the scripts
are modelled by those parameter lists. -/
structure AccessionResult where
  df : List (String × String)
  curl_targets : List (String × String)
  aspera_paths : List String
  fasterq_accessions : List String
deriving DecidableEq

/-- `prepare_accession_table` from `amdirt/core/__init__.py`: deduplicates
the semicolon-joined `(download_links, download_md5s)` pairs across all
rows and the `archive_data_accession` values, and builds the download
artifacts. It performs no column assignment, so the final state of the
`libraries` argument is its input state. -/
def prepare_accession_table (samples : List SampleRow) (libraries : List LibraryRow)
    (table_name : String) (supported_archives : List String) :
    AccessionResult × List LibraryRow :=
  let accessions := dedupFirst (libraries.map (fun r => r.archive_data_accession))
  let urls := libraries.map (fun r => (r.download_links, r.download_md5s))
  let links := dedupFirst (urls.flatMap (fun u =>
    (splitOnChar ';' u.1).zip (splitOnChar ';' u.2)))
  ({ df := dedupFirst (libraries.map (fun r => (r.archive_data_accession, r.download_sizes))),
     curl_targets := links,
     aspera_paths := links.map (fun l => drop_host l.1),
     fasterq_accessions := accessions }, libraries)

/-! ## Merge-feasibility check -/

/-- `is_merge_size_zero` from `amdirt/core/__init__.py`: true when either
table is empty; otherwise the samples table is expanded on comma-joined
`archive_accession` and inner-joined to the libraries table on
`archive_sample_accession == archive_accession`, and the check is true
exactly when the join is empty. (The joined column selection depends on
`table_name` but never affects the row count of the join.) -/
def is_merge_size_zero (samples : List SampleRow) (library : List LibraryRow)
    (table_name : String) : Bool :=
  if samples.length == 0 || library.length == 0 then true
  else
    let stacked_samples := samples.flatMap (fun s =>
      (splitOnChar ',' s.archive_accession).map
        (fun acc => { s with archive_accession := acc }))
    let library_selected := library.flatMap (fun l =>
      (stacked_samples.filter
        (fun s => s.archive_accession == l.archive_sample_accession)).map
        (fun s => (l, s)))
    if samples.length != 0 && library_selected.length == 0 then true else false

/-! ## Configuration store (`amdirt/configuration/configuration.py`)

A `Settings` object is its attribute dictionary: an association list from
attribute name to value (created with the single attribute
`local_json_schema`). `update` iterates over the mapping; `hasattr`
decides whether the attribute is overwritten (`setattr`) or the key is
skipped with a printed warning. Values are polymorphic: nothing inspects
or validates them. -/

/-- `hasattr(self, key)` over the attribute dictionary. -/
def hasattrS {α : Type} (store : List (String × α)) (key : String) : Bool :=
  store.any (fun kv => kv.1 == key)

/-- `setattr(self, key, value)` on an existing attribute: every entry
with that name is overwritten, no entry is added. -/
def setattrS {α : Type} (store : List (String × α)) (key : String) (v : α) :
    List (String × α) :=
  store.map (fun kv => if kv.1 == key then (kv.1, v) else kv)

/-- `Settings.update`: the loop over `updates.items()`. Returns the final
attribute dictionary and the list of warned-about (skipped) keys, in
iteration order. -/
def settings_update {α : Type} (store : List (String × α)) :
    List (String × α) → List (String × α) × List String
  | [] => (store, [])
  | (k, v) :: rest =>
    if hasattrS store k then settings_update (setattrS store k v) rest
    else
      let r := settings_update store rest
      (r.1, k :: r.2)

/-- The initial attribute dictionary built by `Settings.__init__`. -/
def settings_init : List (String × Option String) := [("local_json_schema", none)]

/-- Value associated with the last occurrence of a key in a mapping
(`updates[k]` for a Python dict built in iteration order). -/
def lastAssoc {α : Type} : List (String × α) → String → Option α
  | [], _ => none
  | (k1, v1) :: rest, k =>
    match lastAssoc rest k with
    | some v => some v
    | none => if k1 == k then some v1 else none

/-! ## Validation orchestrator (`amdirt/validate/__init__.py`)

The Validator Engine (`AMDirValidator`) is external to the supplied
source; it is abstracted by the `parsing_ok` flag of the constructed
validator and by the trace of engine calls the orchestrator makes. -/

/-- One call made by `run_validation`: a configuration-store update, one
of the six validator checks, or a rendering call. -/
inductive ValidatorOp where
  | updateSettings (path : String)
  | validateSchema
  | checkDuplicateRows
  | checkColumns
  | checkDuplicateDois
  | checkMultiValues (column_names : List String)
  | checkSampleAccession (remote : Option String)
  | toMarkdown
  | toRich
deriving DecidableEq

/-- Is the operation one of the six validator checks? -/
def ValidatorOp.isCheck : ValidatorOp → Bool
  | .validateSchema | .checkDuplicateRows | .checkColumns
  | .checkDuplicateDois | .checkMultiValues _ | .checkSampleAccession _ => true
  | _ => false

/-- Is the operation a rendering call? -/
def ValidatorOp.isRender : ValidatorOp → Bool
  | .toMarkdown | .toRich => true
  | _ => false

/-- `run_validation` from `amdirt/validate/__init__.py`, as the trace of
calls it makes. `parsing_ok` stands for the `parsing_ok` attribute of the
`AMDirValidator` constructed from the schema and dataset; `multi_values`
is a tuple whose Python truthiness is nonemptiness. The `verbose` flag
only toggles warning suppression and contributes no call. -/
def run_validation (schema_check : Bool) (local_json_schema : Option String)
    (line_dup columns doi : Bool) (multi_values : List String)
    (online_archive : Bool) (remote : Option String)
    (markdown verbose parsing_ok : Bool) : List ValidatorOp :=
  (match local_json_schema with
   | some p => [.updateSettings p]
   | none => []) ++
  (if schema_check && parsing_ok then [.validateSchema] else []) ++
  (if line_dup && parsing_ok then [.checkDuplicateRows] else []) ++
  (if columns && parsing_ok then [.checkColumns] else []) ++
  (if doi && parsing_ok then [.checkDuplicateDois] else []) ++
  (if !multi_values.isEmpty && parsing_ok then [.checkMultiValues multi_values] else []) ++
  (if online_archive && parsing_ok then [.checkSampleAccession remote] else []) ++
  (if markdown then [.toMarkdown] else [.toRich])

/-! ## CLI mutual exclusivity (`amdirt/cli.py`)

`MutuallyExclusiveOption.handle_parse_result` raises `click.UsageError`
when the option itself and one of its declared rivals are both present in
the parsed options; the option names present on the command line are
modelled as the list `opts`. -/

/-- The `click.UsageError` message raised by
`MutuallyExclusiveOption.handle_parse_result`. -/
def mutually_exclusive_msg (name : String) (mutually_exclusive : List String) : String :=
  "Illegal usage: " ++ name ++ " is mutually exclusive with arguments " ++
    joinChar ',' mutually_exclusive ++ "."

/-- `MutuallyExclusiveOption.handle_parse_result` for one option: raises
iff the rival set intersects the supplied options and the option itself
was supplied. -/
def handle_parse_result (name : String) (mutually_exclusive : List String)
    (opts : List String) : Except String Unit :=
  if mutually_exclusive.any (fun m => opts.contains m) && opts.contains name then
    .error (mutually_exclusive_msg name mutually_exclusive)
  else .ok ()

/-- Outcome of invoking the `convert` subcommand: either option parsing
raised a usage error (and `run_convert` was never called), or the
conversion work was dispatched. -/
inductive ConvertOutcome where
  | usageError (msg : String)
  | converted
deriving DecidableEq

/-- Option parsing and dispatch of `convert`: the two mutually exclusive
options (`--libraries`, declared exclusive with `librarymetadata`, and
`--librarymetadata`, declared exclusive with `libraries`) each run their
`handle_parse_result`; only if neither raises is `run_convert` reached. -/
def convert_invoke (opts : List String) : ConvertOutcome :=
  match handle_parse_result "libraries" ["librarymetadata"] opts with
  | .error msg => .usageError msg
  | .ok _ =>
    match handle_parse_result "librarymetadata" ["libraries"] opts with
    | .error msg => .usageError msg
    | .ok _ => .converted

/-! ## Legacy ENA portal client (`AMDirT/core/ena.py`) -/

/-- One record of the `returnFields` JSON response. -/
structure FieldRecord where
  columnId : String
  description : String
deriving DecidableEq

namespace ENAPortalAPI

/-- `ENAPortalAPI._check_fields`, with the `list_fields(result_type)` HTTP
call modelled by passing its JSON response `all_fields`. The Python body
reassigns the `fields` parameter to the discovered column list before the
membership loop, so the loop compares that list against itself. -/
def check_fields (all_fields : List FieldRecord) (fields : List String) : Bool :=
  let fields := all_fields.map (fun field => field.columnId)
  fields.all (fun field => fields.contains field)

end ENAPortalAPI

/-! ## Order lemmas for the version comparison key -/

theorem lexLe_refl (a : List Nat) : lexLe a a = true := by
  induction a with
  | nil => rfl
  | cons x xs ih => simp [lexLe, ih]

theorem lexLe_total (a b : List Nat) : lexLe a b = true ∨ lexLe b a = true := by
  induction a generalizing b with
  | nil => left; rfl
  | cons x xs ih =>
    cases b with
    | nil => right; rfl
    | cons y ys =>
      rcases Nat.lt_trichotomy x y with h | h | h
      · left; simp [lexLe, h]
      · subst h
        rcases ih ys with h2 | h2
        · left; simp [lexLe, Nat.lt_irrefl, h2]
        · right; simp [lexLe, Nat.lt_irrefl, h2]
      · right; simp [lexLe, h]

theorem lexLe_trans {a b c : List Nat} (h1 : lexLe a b = true)
    (h2 : lexLe b c = true) : lexLe a c = true := by
  induction a generalizing b c with
  | nil => rfl
  | cons x xs ih =>
    cases b with
    | nil => simp [lexLe] at h1
    | cons y ys =>
      cases c with
      | nil => simp [lexLe] at h2
      | cons z zs =>
        rcases Nat.lt_trichotomy x y with hx | hx | hx
        · rcases Nat.lt_trichotomy y z with hy | hy | hy
          · simp [lexLe, Nat.lt_trans hx hy]
          · subst hy; simp [lexLe, hx]
          · simp [lexLe, Nat.lt_asymm hy, hy] at h2
        · subst hx
          rcases Nat.lt_trichotomy x z with hy | hy | hy
          · simp [lexLe, hy]
          · subst hy
            simp only [lexLe, Nat.lt_irrefl, if_false] at h1 h2 ⊢
            exact ih h1 h2
          · simp [lexLe, Nat.lt_asymm hy, hy] at h2
        · simp [lexLe, Nat.lt_asymm hx, hx] at h1

/-! ## Behaviour of the tag-filtering comprehension -/

theorem filter_ge_v2209_ok (ts : List String)
    (h : ∀ t ∈ ts, (parseRelease t).isSome = true) :
    filter_ge_v2209 ts = .ok (ts.filter (fun t => lexLe v2209 (verKey t))) := by
  induction ts with
  | nil => rfl
  | cons t ts ih =>
    obtain ⟨v, hv⟩ := Option.isSome_iff_exists.mp (h t (by simp))
    have hk : verKey t = v := by simp [verKey, hv]
    rw [List.filter_cons]
    simp only [filter_ge_v2209, hv,
      ih (fun x hx => h x (List.mem_cons_of_mem _ hx)), Except.map, hk]

theorem filter_ge_v2209_err (ts : List String)
    (h : ∃ t ∈ ts, parseRelease t = none) :
    filter_ge_v2209 ts = .error .invalidVersion := by
  induction ts with
  | nil => simp at h
  | cons t ts ih =>
    rcases h with ⟨x, hx, hnone⟩
    rcases List.mem_cons.mp hx with rfl | hxs
    · simp [filter_ge_v2209, hnone]
    · cases hv : parseRelease t with
      | none => simp [filter_ge_v2209, hv]
      | some v =>
        simp only [filter_ge_v2209, hv, ih ⟨x, hxs, hnone⟩]
        rfl

/-! ## Behaviour of the latest-tag fold -/

theorem latest_pick_ge_seed (ts : List String) (t : String) :
    lexLe (verKey t) (verKey (ts.foldl
      (fun best x => if lexLe (verKey best) (verKey x) then x else best) t)) = true := by
  induction ts generalizing t with
  | nil => exact lexLe_refl _
  | cons y ys ih =>
    simp only [List.foldl_cons]
    by_cases hc : lexLe (verKey t) (verKey y) = true
    · rw [if_pos hc]
      exact lexLe_trans hc (ih y)
    · rw [if_neg (by simp [hc])]
      exact ih t

theorem latest_pick_mem (ts : List String) (t : String) :
    ts.foldl (fun best x => if lexLe (verKey best) (verKey x) then x else best) t
      ∈ t :: ts := by
  induction ts generalizing t with
  | nil => simp
  | cons y ys ih =>
    simp only [List.foldl_cons]
    by_cases hc : lexLe (verKey t) (verKey y) = true
    · rw [if_pos hc]
      exact List.mem_cons_of_mem t (ih y)
    · rw [if_neg (by simp [hc])]
      rcases List.mem_cons.mp (ih t) with h | h
      · rw [h]; exact List.mem_cons_self _ _
      · exact List.mem_cons_of_mem t (List.mem_cons_of_mem y h)

theorem latest_pick_max : ∀ (ts : List String) (t x : String), x ∈ t :: ts →
    lexLe (verKey x) (verKey (ts.foldl
      (fun best x => if lexLe (verKey best) (verKey x) then x else best) t)) = true := by
  intro ts
  induction ts with
  | nil =>
    intro t x hx
    rcases List.mem_cons.mp hx with rfl | h
    · exact lexLe_refl _
    · simp at h
  | cons y ys ih =>
    intro t x hx
    simp only [List.foldl_cons]
    rcases List.mem_cons.mp hx with rfl | hyx
    · by_cases hc : lexLe (verKey x) (verKey y) = true
      · rw [if_pos hc]
        exact lexLe_trans hc (latest_pick_ge_seed ys y)
      · rw [if_neg (by simp [hc])]
        exact latest_pick_ge_seed ys x
    · rcases List.mem_cons.mp hyx with rfl | hys
      · by_cases hc : lexLe (verKey t) (verKey x) = true
        · rw [if_pos hc]
          exact latest_pick_ge_seed ys x
        · rw [if_neg (by simp [hc])]
          have hxt : lexLe (verKey x) (verKey t) = true := by
            rcases lexLe_total (verKey t) (verKey x) with h | h
            · exact absurd h hc
            · exact h
          exact lexLe_trans hxt (latest_pick_ge_seed ys t)
      · exact ih (if lexLe (verKey t) (verKey y) then y else t) x
          (List.mem_cons_of_mem _ hys)

/-! ## Claim theorems -/

/-- C9: for every discovered field list and every requested fields
argument, the legacy ENA portal field validator returns `True`: the body
reassigns `fields` to the discovered column list and then checks that
list against itself. -/
theorem check_fields_always_true (all_fields : List FieldRecord)
    (fields : List String) :
    ENAPortalAPI.check_fields all_fields fields = true := by
  simp only [ENAPortalAPI.check_fields, List.all_eq_true]
  intro x hx
  exact List.elem_eq_true_of_mem hx

/-- C10: for every path string, `get_filename` with an orientation other
than `"fwd"` and `"rev"` falls through both branches and returns no value
(Python `None`, modelled by `none`). -/
theorem get_filename_other_orientation (p o : String)
    (hf : o ≠ "fwd") (hr : o ≠ "rev") : get_filename p o = none := by
  simp only [get_filename]
  rw [if_neg (by simp [hf]), if_neg (by simp [hr])]

/-- C10 witness: a concrete out-of-range orientation. -/
theorem get_filename_other_orientation_witness :
    get_filename "a/b/r1.fq.gz" "both" = none :=
  get_filename_other_orientation "a/b/r1.fq.gz" "both" (by decide) (by decide)

/-- C4: with a semicolon in the path string, `get_filename` returns the
basename of the first semicolon-separated path for `"fwd"` and of the
second for `"rev"`; without a semicolon it returns the single basename
for `"fwd"` and the literal `"NA"` for `"rev"`. -/
theorem get_filename_orientation_spec (p : String) :
    (containsStr ";" p = true →
      get_filename p "fwd" = some (pathName ((splitOnChar ';' p).getD 0 "")) ∧
      get_filename p "rev" = some (pathName ((splitOnChar ';' p).getD 1 ""))) ∧
    (containsStr ";" p = false →
      get_filename p "fwd" = some (pathName p) ∧
      get_filename p "rev" = some "NA") := by
  constructor
  · intro h; constructor <;> simp [get_filename, h]
  · intro h; constructor <;> simp [get_filename, h]

/-- C4 witness: the concrete examples of the claim. -/
theorem get_filename_orientation_spec_witness :
    containsStr ";" "a/b/r1.fq.gz;a/b/r2.fq.gz" = true ∧
    get_filename "a/b/r1.fq.gz;a/b/r2.fq.gz" "fwd" = some "r1.fq.gz" ∧
    get_filename "a/b/r1.fq.gz;a/b/r2.fq.gz" "rev" = some "r2.fq.gz" ∧
    containsStr ";" "a/b/r1.fq.gz" = false ∧
    get_filename "a/b/r1.fq.gz" "rev" = some "NA" := by
  refine ⟨by decide, ?_, ?_, by decide, ?_⟩
  · exact (((get_filename_orientation_spec "a/b/r1.fq.gz;a/b/r2.fq.gz").1
      (by decide)).1).trans (by decide)
  · exact (((get_filename_orientation_spec "a/b/r1.fq.gz;a/b/r2.fq.gz").1
      (by decide)).2).trans (by decide)
  · exact (((get_filename_orientation_spec "a/b/r1.fq.gz").2 (by decide)).2).trans rfl

/-- C1 counterexample: the claim fails on the code at two concrete
inputs. A connection failure propagates as an exception instead of
producing `["master"]` with a warning, and a 200 response containing the
unparseable tag `"bogus"` raises `InvalidVersion` instead of dropping the
tag and returning the filtered list. -/
theorem get_amdir_tags_claim_counterexample :
    get_amdir_tags .unreachable = .error .connectionError ∧
    get_amdir_tags .unreachable ≠ .ok ⟨["master"], true⟩ ∧
    get_amdir_tags (.response 200 ["latest", "v22.09", "v22.06", "v23.01", "bogus"]) =
      .error .invalidVersion ∧
    get_amdir_tags (.response 200 ["latest", "v22.09", "v22.06", "v23.01", "bogus"]) ≠
      .ok ⟨["v22.09", "v23.01"], false⟩ :=
  ⟨rfl, by decide, by decide, by decide⟩

/-- C1 (amended): a non-200 tag-list response makes `get_amdir_tags`
return exactly `["master"]` with a logged warning; a connection failure
propagates as an error; on a 200 response whose tags other than
`"latest"` all parse, the function returns the non-`"latest"` tags whose
version is at least `v22.09`; an unparseable tag such as `"bogus"` makes
the call fail with `InvalidVersion` instead of being dropped. -/
theorem get_amdir_tags_amended (status : Nat) (names : List String) :
    (status ≠ 200 → get_amdir_tags (.response status names) = .ok ⟨["master"], true⟩) ∧
    get_amdir_tags .unreachable = .error .connectionError ∧
    ((∀ n ∈ names.filter (fun n => n ≠ "latest"), (parseRelease n).isSome = true) →
      get_amdir_tags (.response 200 names) =
        .ok ⟨(names.filter (fun n => n ≠ "latest")).filter
              (fun t => lexLe v2209 (verKey t)), false⟩) ∧
    ((∃ n ∈ names.filter (fun n => n ≠ "latest"), parseRelease n = none) →
      get_amdir_tags (.response 200 names) = .error .invalidVersion) := by
  refine ⟨?_, rfl, ?_, ?_⟩
  · intro h
    simp only [get_amdir_tags]
    rw [if_neg (by simp [h])]
  · intro h
    have h200 : ((200 : Nat) == 200) = true := rfl
    simp only [get_amdir_tags]
    rw [if_pos h200, filter_ge_v2209_ok _ h]
    rfl
  · intro h
    have h200 : ((200 : Nat) == 200) = true := rfl
    simp only [get_amdir_tags]
    rw [if_pos h200, filter_ge_v2209_err _ h]
    rfl

/-- C1 witness: the amended behaviour at concrete inputs. -/
theorem get_amdir_tags_amended_witness :
    get_amdir_tags (.response 404 []) = .ok ⟨["master"], true⟩ ∧
    get_amdir_tags (.response 200 ["latest", "v22.09", "v22.06", "v23.01"]) =
      .ok ⟨["v22.09", "v23.01"], false⟩ ∧
    get_amdir_tags (.response 200 ["bogus"]) = .error .invalidVersion := by
  refine ⟨(get_amdir_tags_amended 404 []).1 (by decide), ?_,
    (get_amdir_tags_amended 200 ["bogus"]).2.2.2 ⟨"bogus", by decide, by decide⟩⟩
  exact ((get_amdir_tags_amended 200 ["latest", "v22.09", "v22.06", "v23.01"]).2.2.1
    (by decide)).trans (by decide)

/-- C5 counterexample: on the empty candidate list the claim fails:
`sorted([])[-1]` raises an uncaught `IndexError`, so `get_latest_tag`
neither returns a maximal tag nor raises the invalid-version error. -/
theorem get_latest_tag_claim_counterexample :
    get_latest_tag [] = .error .indexError ∧
    (get_latest_tag []).isOk = false ∧
    get_latest_tag [] ≠ .error .invalidVersion :=
  ⟨rfl, rfl, by decide⟩

/-- C5 (amended): for every nonempty list of candidate tags that all
parse as versions, `get_latest_tag` returns the picked tag, which belongs
to the list and is maximal under the parsed-version ordering; if any
candidate fails to parse, it returns `"master"` when `"master"` is among
the candidates and otherwise fails with the invalid-version error; on the
empty list it fails with an uncaught index error. -/
theorem get_latest_tag_amended (tags : List String) :
    (tags ≠ [] → (∀ t ∈ tags, (parseRelease t).isSome = true) →
      ∀ r, latest_tag_pick tags = some r →
        get_latest_tag tags = .ok r ∧ r ∈ tags ∧
          ∀ t ∈ tags, lexLe (verKey t) (verKey r) = true) ∧
    ((∃ t ∈ tags, parseRelease t = none) →
      (tags.contains "master" = true → get_latest_tag tags = .ok "master") ∧
      (tags.contains "master" = false → get_latest_tag tags = .error .invalidVersion)) ∧
    get_latest_tag [] = .error .indexError := by
  refine ⟨?_, ?_, rfl⟩
  · intro hne hall r hr
    have hcond : tags.all (fun t => (parseRelease t).isSome) = true := by
      rw [List.all_eq_true]; exact hall
    cases tags with
    | nil => exact absurd rfl hne
    | cons t ts =>
      simp only [latest_tag_pick, Option.some.injEq] at hr
      subst hr
      refine ⟨?_, latest_pick_mem ts t, fun x hx => latest_pick_max ts t x hx⟩
      simp only [get_latest_tag, latest_tag_pick]
      rw [if_pos hcond]
  · intro hex
    have hcond : ¬ tags.all (fun t => (parseRelease t).isSome) = true := by
      rcases hex with ⟨x, hx, hnone⟩
      rw [List.all_eq_true]
      intro hall
      have := hall x hx
      rw [hnone] at this
      exact Bool.false_ne_true this
    constructor
    · intro hm
      simp only [get_latest_tag]
      rw [if_neg hcond, if_pos hm]
    · intro hm
      simp only [get_latest_tag]
      rw [if_neg hcond, if_neg (by simpa using hm)]

/-- C5 witness: the amended behaviour at concrete inputs, including the
maximality of the returned tag. -/
theorem get_latest_tag_amended_witness :
    get_latest_tag ["v22.09", "v23.01"] = .ok "v23.01" ∧
    lexLe (verKey "v22.09") (verKey "v23.01") = true ∧
    get_latest_tag ["master", "bogus"] = .ok "master" ∧
    get_latest_tag ["bogus"] = .error .invalidVersion := by
  have h := (get_latest_tag_amended ["v22.09", "v23.01"]).1 (by decide) (by decide)
    "v23.01" (by decide)
  refine ⟨h.1, h.2.2 "v22.09" (by decide), ?_, ?_⟩
  · exact ((get_latest_tag_amended ["master", "bogus"]).2.1
      ⟨"bogus", by decide, by decide⟩).1 (by decide)
  · exact ((get_latest_tag_amended ["bogus"]).2.1
      ⟨"bogus", by decide, by decide⟩).2 (by decide)

/-- C2: when `parsing_ok` is false no check is invoked by
`run_validation`, and exactly one rendering operation is invoked per
invocation - `to_markdown` when the markdown flag is set, otherwise
`to_rich` - even when zero checks executed. -/
theorem run_validation_gating (schema_check : Bool) (local_json_schema : Option String)
    (line_dup columns doi : Bool) (multi_values : List String)
    (online_archive : Bool) (remote : Option String) (markdown verbose parsing_ok : Bool) :
    (parsing_ok = false →
      (run_validation schema_check local_json_schema line_dup columns doi multi_values
        online_archive remote markdown verbose parsing_ok).filter ValidatorOp.isCheck = []) ∧
    (run_validation schema_check local_json_schema line_dup columns doi multi_values
        online_archive remote markdown verbose parsing_ok).filter ValidatorOp.isRender =
      [if markdown then ValidatorOp.toMarkdown else ValidatorOp.toRich] := by
  constructor
  · intro h
    subst h
    cases local_json_schema <;> cases markdown <;>
      simp [run_validation, List.filter_append, ValidatorOp.isCheck]
  · cases local_json_schema <;> cases markdown <;>
      simp [run_validation, List.filter_append, ValidatorOp.isRender,
        apply_ite (List.filter ValidatorOp.isRender)]

/-- C2 witness: all six check flags set but parsing failed - no check
runs, and the default rich rendering is still the one invoked. -/
theorem run_validation_gating_witness :
    (run_validation true (some "schemas") true true true ["c1"] true (some "r")
      false true false).filter ValidatorOp.isCheck = [] ∧
    (run_validation true (some "schemas") true true true ["c1"] true (some "r")
      false true false).filter ValidatorOp.isRender = [ValidatorOp.toRich] := by
  refine ⟨(run_validation_gating true (some "schemas") true true true ["c1"] true
    (some "r") false true false).1 rfl, ?_⟩
  exact ((run_validation_gating true (some "schemas") true true true ["c1"] true
    (some "r") false true false).2).trans (by decide)

/-- C8: supplying both mutually exclusive `convert` options raises a
usage error before any conversion work, and supplying at most one of
them raises no such error. -/
theorem mutually_exclusive_options_spec (opts : List String) :
    (opts.contains "libraries" = true → opts.contains "librarymetadata" = true →
      convert_invoke opts =
        .usageError (mutually_exclusive_msg "libraries" ["librarymetadata"])) ∧
    (¬(opts.contains "libraries" = true ∧ opts.contains "librarymetadata" = true) →
      convert_invoke opts = .converted) := by
  constructor
  · intro h1 h2
    have m1 : "libraries" ∈ opts := by simpa using h1
    have m2 : "librarymetadata" ∈ opts := by simpa using h2
    simp [convert_invoke, handle_parse_result, m1, m2]
  · intro h
    by_cases m1 : "libraries" ∈ opts
    · have m2 : "librarymetadata" ∉ opts := by
        intro m2
        exact h ⟨by simpa using m1, by simpa using m2⟩
      simp [convert_invoke, handle_parse_result, m1, m2]
    · simp [convert_invoke, handle_parse_result, m1]

/-- C8 witness: both options supplied yields the usage error; one option
alone converts. -/
theorem mutually_exclusive_options_spec_witness :
    convert_invoke ["samples", "table_name", "libraries", "librarymetadata"] =
      .usageError (mutually_exclusive_msg "libraries" ["librarymetadata"]) ∧
    convert_invoke ["samples", "table_name", "libraries"] = .converted ∧
    convert_invoke ["samples", "table_name"] = .converted :=
  ⟨(mutually_exclusive_options_spec ["samples", "table_name", "libraries",
      "librarymetadata"]).1 (by decide) (by decide),
   (mutually_exclusive_options_spec ["samples", "table_name", "libraries"]).2 (by decide),
   (mutually_exclusive_options_spec ["samples", "table_name"]).2 (by decide)⟩

/-! ## Behaviour of the configuration-store update -/

theorem setattrS_keys {α : Type} (store : List (String × α)) (k : String) (v : α) :
    (setattrS store k v).map Prod.fst = store.map Prod.fst := by
  induction store with
  | nil => rfl
  | cons kv rest ih =>
    simp only [setattrS, List.map_cons] at ih ⊢
    rw [ih]
    congr 1
    split <;> rfl

theorem hasattrS_setattrS {α : Type} (store : List (String × α)) (k k2 : String) (v : α) :
    hasattrS (setattrS store k v) k2 = hasattrS store k2 := by
  induction store with
  | nil => rfl
  | cons kv rest ih =>
    simp only [setattrS, hasattrS, List.map_cons, List.any_cons] at ih ⊢
    rw [ih]
    congr 1
    split <;> rfl

theorem lookup_setattrS_self {α : Type} (store : List (String × α)) (k : String) (v : α)
    (h : hasattrS store k = true) : List.lookup k (setattrS store k v) = some v := by
  induction store with
  | nil => simp [hasattrS] at h
  | cons kv rest ih =>
    rcases kv with ⟨k1, v1⟩
    by_cases hk : k1 = k
    · subst hk
      simp only [setattrS, List.map_cons]
      rw [if_pos (by simp)]
      simp [List.lookup]
    · have hrest : hasattrS rest k = true := by
        simp only [hasattrS, List.any_cons] at h
        rcases Bool.or_eq_true_iff.mp h with h1 | h1
        · exact absurd (by simpa using h1) hk
        · exact h1
      have hb : (k == k1) = false := by simp; exact fun he => hk he.symm
      simp only [setattrS, List.map_cons] at ih ⊢
      rw [if_neg (by simpa using hk)]
      simp only [List.lookup, hb]
      exact ih hrest

theorem lookup_setattrS_other {α : Type} (store : List (String × α)) (k k2 : String)
    (v : α) (h : k2 ≠ k) : List.lookup k2 (setattrS store k v) = List.lookup k2 store := by
  induction store with
  | nil => rfl
  | cons kv rest ih =>
    rcases kv with ⟨k1, v1⟩
    by_cases hk : k1 = k
    · subst hk
      have hb : (k2 == k1) = false := by simpa using h
      simp only [setattrS, List.map_cons]
      rw [if_pos (by simp)]
      simp only [List.lookup, hb]
      exact ih
    · simp only [setattrS, List.map_cons]
      rw [if_neg (by simpa using hk)]
      by_cases he : k2 = k1
      · subst he
        simp [List.lookup]
      · have hb : (k2 == k1) = false := by simpa using he
        simp only [List.lookup, hb]
        exact ih

theorem settings_update_keys {α : Type} (updates : List (String × α)) :
    ∀ store : List (String × α),
      (settings_update store updates).1.map Prod.fst = store.map Prod.fst := by
  induction updates with
  | nil => intro store; rfl
  | cons kv rest ih =>
    intro store
    rcases kv with ⟨k, v⟩
    by_cases h : hasattrS store k = true
    · simp only [settings_update, if_pos h]
      rw [ih (setattrS store k v), setattrS_keys]
    · simp only [settings_update, if_neg h]
      exact ih store

theorem settings_update_untouched {α : Type} (updates : List (String × α)) :
    ∀ (store : List (String × α)) (k : String), (∀ p ∈ updates, p.1 ≠ k) →
      List.lookup k (settings_update store updates).1 = List.lookup k store := by
  induction updates with
  | nil => intro store k _; rfl
  | cons kv rest ih =>
    intro store k hk
    rcases kv with ⟨k1, v1⟩
    have hk1 : k1 ≠ k := hk (k1, v1) (by simp)
    have hrest : ∀ p ∈ rest, p.1 ≠ k := fun p hp => hk p (List.mem_cons_of_mem _ hp)
    by_cases h : hasattrS store k1 = true
    · simp only [settings_update, if_pos h]
      rw [ih (setattrS store k1 v1) k hrest, lookup_setattrS_other _ _ _ _ (fun he => hk1 he.symm)]
    · simp only [settings_update, if_neg h]
      exact ih store k hrest

theorem lastAssoc_none {α : Type} (l : List (String × α)) (k : String)
    (h : lastAssoc l k = none) : ∀ p ∈ l, p.1 ≠ k := by
  induction l with
  | nil => intro p hp; simp at hp
  | cons kv rest ih =>
    intro p hp
    rcases kv with ⟨k1, v1⟩
    simp only [lastAssoc] at h
    cases hr : lastAssoc rest k with
    | some v2 => rw [hr] at h; exact absurd h (by simp)
    | none =>
      rw [hr] at h
      have hk1 : k1 ≠ k := by
        intro he
        rw [if_pos (by simpa using he)] at h
        exact absurd h (by simp)
      rcases List.mem_cons.mp hp with rfl | hrest
      · exact hk1
      · exact ih hr p hrest

theorem settings_update_overwrite {α : Type} (updates : List (String × α)) :
    ∀ (store : List (String × α)) (k : String) (v : α), hasattrS store k = true →
      lastAssoc updates k = some v →
      List.lookup k (settings_update store updates).1 = some v := by
  induction updates with
  | nil => intro store k v _ hlast; simp [lastAssoc] at hlast
  | cons kv rest ih =>
    intro store k v hattr hlast
    rcases kv with ⟨k1, v1⟩
    simp only [lastAssoc] at hlast
    cases hrest : lastAssoc rest k with
    | some v2 =>
      rw [hrest] at hlast
      have hv : v2 = v := by simpa using hlast
      subst hv
      by_cases h : hasattrS store k1 = true
      · simp only [settings_update, if_pos h]
        exact ih (setattrS store k1 v1) k v2
          (by rw [hasattrS_setattrS]; exact hattr) hrest
      · simp only [settings_update, if_neg h]
        exact ih store k v2 hattr hrest
    | none =>
      rw [hrest] at hlast
      by_cases hk : k1 = k
      · rw [if_pos (by simpa using hk)] at hlast
        have hv : v1 = v := by simpa using hlast
        subst hv
        subst hk
        simp only [settings_update, if_pos hattr]
        rw [settings_update_untouched rest (setattrS store k1 v1) k1
          (fun p hp => lastAssoc_none rest k1 hrest p hp)]
        exact lookup_setattrS_self store k1 v1 hattr
      · rw [if_neg (by simpa using hk)] at hlast
        exact absurd hlast (by simp)

theorem settings_update_warns {α : Type} (updates : List (String × α)) :
    ∀ store : List (String × α),
      (settings_update store updates).2 =
        (updates.map Prod.fst).filter (fun k => !(hasattrS store k)) := by
  induction updates with
  | nil => intro store; rfl
  | cons kv rest ih =>
    intro store
    rcases kv with ⟨k1, v1⟩
    by_cases h : hasattrS store k1 = true
    · simp only [settings_update, if_pos h]
      rw [ih (setattrS store k1 v1)]
      have hfn : (fun k => !(hasattrS (setattrS store k1 v1) k)) =
          (fun k => !(hasattrS store k)) := by
        funext k2; rw [hasattrS_setattrS]
      rw [hfn, List.map_cons, List.filter_cons]
      rw [if_neg (by simp [h])]
    · simp only [settings_update, if_neg h]
      rw [ih store, List.map_cons, List.filter_cons]
      rw [if_pos (by simp [Bool.not_eq_true] at h; simp [h])]

/-- C7: `Settings.update` overwrites each existing attribute named by the
mapping with the mapping value (the last one for a repeated key, with no
inspection of the value), warns about and skips each key that names no
existing attribute (creating nothing), and leaves every attribute not
named in the mapping unchanged. -/
theorem settings_update_spec {α : Type} (store updates : List (String × α)) :
    ((settings_update store updates).1.map Prod.fst = store.map Prod.fst) ∧
    (∀ k, (∀ p ∈ updates, p.1 ≠ k) →
      List.lookup k (settings_update store updates).1 = List.lookup k store) ∧
    (∀ k v, hasattrS store k = true → lastAssoc updates k = some v →
      List.lookup k (settings_update store updates).1 = some v) ∧
    ((settings_update store updates).2 =
      (updates.map Prod.fst).filter (fun k => !(hasattrS store k))) :=
  ⟨settings_update_keys updates store,
   fun k hk => settings_update_untouched updates store k hk,
   fun k v h1 h2 => settings_update_overwrite updates store k v h1 h2,
   settings_update_warns updates store⟩

/-- C7 witness: updating the initial store with one known and one unknown
key overwrites the known attribute, warns about the unknown key, and
creates no attribute. -/
theorem settings_update_spec_witness :
    List.lookup "local_json_schema"
      (settings_update settings_init
        [("local_json_schema", some "schemas"), ("bogus", some "x")]).1 =
      some (some "schemas") ∧
    (settings_update settings_init
      [("local_json_schema", some "schemas"), ("bogus", some "x")]).2 = ["bogus"] ∧
    (settings_update settings_init
      [("local_json_schema", some "schemas"), ("bogus", some "x")]).1.map Prod.fst =
      ["local_json_schema"] := by
  have h := settings_update_spec settings_init
    [("local_json_schema", some "schemas"), ("bogus", some "x")]
  exact ⟨h.2.2.1 "local_json_schema" (some "schemas") (by decide) (by decide),
    (h.2.2.2).trans (by decide), (h.1).trans (by decide)⟩

/-- C3: `is_merge_size_zero` is true when either table has 0 rows; true
for a non-empty samples table none of whose comma-expanded
`archive_accession` values matches any `archive_sample_accession` of a
non-empty libraries table; and false for a non-empty samples table with
at least one matching library row. -/
theorem is_merge_size_zero_spec (samples : List SampleRow) (library : List LibraryRow)
    (table_name : String) :
    (samples = [] ∨ library = [] → is_merge_size_zero samples library table_name = true) ∧
    (samples ≠ [] → library ≠ [] →
      (∀ l ∈ library, ∀ s ∈ samples, ∀ acc ∈ splitOnChar ',' s.archive_accession,
        acc ≠ l.archive_sample_accession) →
      is_merge_size_zero samples library table_name = true) ∧
    (samples ≠ [] →
      (∃ l ∈ library, ∃ s ∈ samples, ∃ acc ∈ splitOnChar ',' s.archive_accession,
        acc = l.archive_sample_accession) →
      is_merge_size_zero samples library table_name = false) := by
  have hiff : ∀ sel : List (LibraryRow × SampleRow),
      (sel = library.flatMap (fun l =>
        (((samples.flatMap (fun s => (splitOnChar ',' s.archive_accession).map
            (fun acc => { s with archive_accession := acc }))).filter
          (fun s => s.archive_accession == l.archive_sample_accession)).map
          (fun s => (l, s)))) →
        (sel = [] ↔ ∀ l ∈ library, ∀ s ∈ samples,
          ∀ acc ∈ splitOnChar ',' s.archive_accession,
            acc ≠ l.archive_sample_accession)) := by
    intro sel hsel
    subst hsel
    simp only [List.flatMap_eq_nil_iff, List.map_eq_nil_iff, List.filter_eq_nil_iff,
      List.mem_flatMap, List.mem_map]
    constructor
    · intro h l hl s hs acc hacc heq
      exact h l hl { s with archive_accession := acc }
        ⟨s, hs, acc, hacc, rfl⟩ (by simpa using heq)
    · intro h l hl s' hs'
      rcases hs' with ⟨s, hs, acc, hacc, rfl⟩
      simpa using h l hl s hs acc hacc
  refine ⟨?_, ?_, ?_⟩
  · intro h
    rcases h with rfl | rfl <;> simp [is_merge_size_zero]
  · intro hs hl hnone
    have hc : (samples.length == 0 || library.length == 0) = false := by
      simp [List.length_eq_zero, hs, hl]
    simp only [is_merge_size_zero]
    rw [if_neg (by simp [hc])]
    have hsel := (hiff _ rfl).mpr hnone
    rw [if_pos]
    rw [hsel]
    simp [List.length_eq_zero, hs]
  · intro hs hex
    have hl : library ≠ [] := by
      rcases hex with ⟨l, hl, _⟩
      exact List.ne_nil_of_mem hl
    have hc : (samples.length == 0 || library.length == 0) = false := by
      simp [List.length_eq_zero, hs, hl]
    simp only [is_merge_size_zero]
    rw [if_neg (by simp [hc])]
    have hne : ¬ (library.flatMap (fun l =>
        (((samples.flatMap (fun s => (splitOnChar ',' s.archive_accession).map
            (fun acc => { s with archive_accession := acc }))).filter
          (fun s => s.archive_accession == l.archive_sample_accession)).map
          (fun s => (l, s)))) = []) := by
      intro hnil
      rcases hex with ⟨l, hl, s, hs', acc, hacc, heq⟩
      exact ((hiff _ rfl).mp hnil) l hl s hs' acc hacc heq
    rw [if_neg]
    intro hcond
    rcases Bool.and_eq_true_iff.mp hcond with ⟨_, h0⟩
    exact hne (List.length_eq_zero.mp (eq_of_beq h0))

/-- C3 witness: a samples row with accessions `A,B` contributes nothing
against a library containing only `C` (check true) and matches a library
containing `B` (check false); empty tables are always true. -/
theorem is_merge_size_zero_spec_witness :
    is_merge_size_zero [] [{ archive_sample_accession := "B" }] "t" = true ∧
    is_merge_size_zero [{ archive_accession := "A,B" }]
      [{ archive_sample_accession := "C" }] "t" = true ∧
    is_merge_size_zero [{ archive_accession := "A,B" }]
      [{ archive_sample_accession := "B" }] "t" = false := by
  refine ⟨(is_merge_size_zero_spec [] [{ archive_sample_accession := "B" }] "t").1
      (Or.inl rfl), ?_, ?_⟩
  · exact (is_merge_size_zero_spec [{ archive_accession := "A,B" }]
      [{ archive_sample_accession := "C" }] "t").2.1 (by decide) (by decide) (by decide)
  · exact (is_merge_size_zero_spec [{ archive_accession := "A,B" }]
      [{ archive_sample_accession := "B" }] "t").2.2 (by decide)
      ⟨{ archive_sample_accession := "B" }, by decide,
       { archive_accession := "A,B" }, by decide, "B", by decide, by decide⟩

/-! ## Frame behaviour of the pipeline shapers -/

theorem eager_enrich_sample_name (table_name : String) (r : LibraryRow) :
    (eager_enrich table_name r).sample_name = sanitize_name r.sample_name := by
  simp only [eager_enrich]
  split <;> rfl

theorem taxprofiler_enrich_sample_name (r : LibraryRow) :
    (taxprofiler_enrich r).sample_name = sanitize_name r.sample_name := rfl

/-- C6 counterexample: `prepare_eager_table` does not leave the caller
libraries table unchanged: on a one-row table the final state of the
`libraries` argument differs from its input state (the sample name is
rewritten and the derived columns are assigned). -/
theorem prepare_tables_mutation_counterexample :
    (prepare_eager_table [] [{ sample_name := "a b" }] "t" []).2 ≠
      [({ sample_name := "a b" } : LibraryRow)] := by decide

/-- C6 (amended): the pipeline shapers do not leave the caller input
tables unchanged: `prepare_eager_table`, `prepare_taxprofiler_table`,
`prepare_mag_table` and `prepare_aMeta_table` mutate the caller
libraries table in place (rewriting `sample_name` with its sanitized
value and, except for mag, assigning derived columns), while
`prepare_accession_table` performs no assignment and returns the
libraries table unchanged; the shaped results are produced as new
tables. -/
theorem prepare_tables_mutation_amended (samples : List SampleRow) (table_name : String)
    (supported_archives : List String) (r : LibraryRow) (rest : List LibraryRow)
    (h : sanitize_name r.sample_name ≠ r.sample_name) :
    (prepare_eager_table samples (r :: rest) table_name supported_archives).2 ≠
      r :: rest ∧
    (prepare_taxprofiler_table samples (r :: rest) table_name supported_archives).2 ≠
      r :: rest ∧
    (prepare_mag_table samples (r :: rest) table_name supported_archives).2 ≠
      r :: rest ∧
    (prepare_aMeta_table samples (r :: rest) table_name supported_archives).2 ≠
      r :: rest ∧
    (prepare_accession_table samples (r :: rest) table_name supported_archives).2 =
      r :: rest := by
  refine ⟨?_, ?_, ?_, ?_, rfl⟩
  · intro heq
    have hh : eager_enrich table_name r = r := by
      have hhd := congrArg (fun l => l.head?) heq
      simpa [prepare_eager_table] using hhd
    exact h (by rw [← eager_enrich_sample_name table_name r, hh])
  · intro heq
    have hh : taxprofiler_enrich r = r := by
      have hhd := congrArg (fun l => l.head?) heq
      simpa [prepare_taxprofiler_table] using hhd
    exact h (by rw [← taxprofiler_enrich_sample_name r, hh])
  · intro heq
    have hh : ({ r with sample_name := sanitize_name r.sample_name } : LibraryRow) = r := by
      have hhd := congrArg (fun l => l.head?) heq
      simpa [prepare_mag_table] using hhd
    exact h (congrArg LibraryRow.sample_name hh)
  · intro heq
    have hh : eager_enrich table_name r = r := by
      have hhd := congrArg (fun l => l.head?) heq
      simpa [prepare_aMeta_table] using hhd
    exact h (by rw [← eager_enrich_sample_name table_name r, hh])

/-- C6 witness: the amended behaviour on a concrete one-row libraries
table whose sample name contains a space. -/
theorem prepare_tables_mutation_amended_witness :
    sanitize_name "a b" ≠ "a b" ∧
    (prepare_eager_table [] [{ sample_name := "a b" }] "e" []).2 ≠
      [({ sample_name := "a b" } : LibraryRow)] ∧
    (prepare_taxprofiler_table [] [{ sample_name := "a b" }] "e" []).2 ≠
      [({ sample_name := "a b" } : LibraryRow)] ∧
    (prepare_mag_table [] [{ sample_name := "a b" }] "e" []).2 ≠
      [({ sample_name := "a b" } : LibraryRow)] ∧
    (prepare_aMeta_table [] [{ sample_name := "a b" }] "e" []).2 ≠
      [({ sample_name := "a b" } : LibraryRow)] ∧
    (prepare_accession_table [] [{ sample_name := "a b" }] "e" []).2 =
      [({ sample_name := "a b" } : LibraryRow)] := by
  have h := prepare_tables_mutation_amended [] "e" [] { sample_name := "a b" } []
    (by decide)
  exact ⟨by decide, h.1, h.2.1, h.2.2.1, h.2.2.2.1, h.2.2.2.2⟩

end Amdirt
